import Mathlib

/-!
Verification of the telebot repository against its specification.

Shallow embedding of the parts of the code the claims are about:
the SQLite-backed user-preference store (`storage.py`), the feed loader
(`formatter.py: load_latest`, `_load_today_or_friendly`), the Quran verse
providers (`quran.py`), the broadcast send loop, and the prayer-message
formatter blocks (canonical ordering, next-prayer highlight, countdown).
External state (the clock, the filesystem, the platform send call, the
Hijri conversion library, the random choice) enters as explicit parameters.
-/

namespace Telebot

/-! ## User preference store (src/zarchived abotaya/storage.py, src/bot/storage.py)

A row of the `user_prefs` table.  The richer schema generation
(`zarchived abotaya/storage.py`) carries a nullable `language` column;
the SQL statements of the two cited generations are identical apart from
that column.  The table is modelled as a list of rows; `user_id` is the
primary key, so a well-formed database has at most one row per `user_id`. -/
structure UserPrefs where
  user_id : Int
  chat_id : Int
  time_hhmm : Option String := none
  enabled : Bool := true
  language : Option String := none
deriving Repr, DecidableEq

abbrev DB := List UserPrefs

/-- The row predicate of `WHERE user_id=?` / `ON CONFLICT(user_id)`. -/
def keyIs (uid : Int) (r : UserPrefs) : Bool :=
  decide (r.user_id = uid)

/-- Whether some row with this `user_id` exists (the INSERT's conflict test). -/
def hasUser (db : DB) (uid : Int) : Bool :=
  db.any (keyIs uid)

/-- `Storage.upsert_user`:
`INSERT INTO user_prefs(user_id, chat_id, enabled) VALUES(?, ?, 1)
 ON CONFLICT(user_id) DO UPDATE SET chat_id=excluded.chat_id`. -/
def upsert_user (db : DB) (uid cid : Int) : DB :=
  if hasUser db uid then
    db.map (fun r => if r.user_id = uid then { r with chat_id := cid } else r)
  else
    db ++ [{ user_id := uid, chat_id := cid }]

/-- `Storage.set_time`:
`INSERT INTO user_prefs(user_id, chat_id, time_hhmm, enabled) VALUES(?, ?, ?, 1)
 ON CONFLICT(user_id) DO UPDATE SET chat_id=excluded.chat_id,
 time_hhmm=excluded.time_hhmm, enabled=1`. -/
def set_time (db : DB) (uid cid : Int) (t : String) : DB :=
  if hasUser db uid then
    db.map (fun r =>
      if r.user_id = uid then
        { r with chat_id := cid, time_hhmm := some t, enabled := true }
      else r)
  else
    db ++ [{ user_id := uid, chat_id := cid, time_hhmm := some t, enabled := true }]

/-- `Storage.set_enabled`:
`UPDATE user_prefs SET enabled=? WHERE user_id=?` — a bare UPDATE, no insert. -/
def set_enabled (db : DB) (uid : Int) (e : Bool) : DB :=
  db.map (fun r => if r.user_id = uid then { r with enabled := e } else r)

/-- `Storage.get_user`: `SELECT ... FROM user_prefs WHERE user_id=?` + `fetchone()`. -/
def get_user (db : DB) (uid : Int) : Option UserPrefs :=
  db.find? (keyIs uid)

/-- `Storage.list_enabled_users`: `SELECT ... FROM user_prefs WHERE enabled=1`. -/
def list_enabled_users (db : DB) : List UserPrefs :=
  db.filter (fun r => r.enabled)

/-! Helper lemmas about the row updates. -/

theorem keyIs_comp (uid : Int) (f : UserPrefs → UserPrefs)
    (hf : ∀ r, (f r).user_id = r.user_id) :
    (keyIs uid ∘ f) = keyIs uid := by
  funext r
  simp [keyIs, Function.comp, hf]

theorem find?_map_userid (db : DB) (uid : Int) (f : UserPrefs → UserPrefs)
    (hf : ∀ r, (f r).user_id = r.user_id) :
    (db.map f).find? (keyIs uid) = ((db.find? (keyIs uid)).map f) := by
  rw [List.find?_map, keyIs_comp uid f hf]

theorem filter_map_userid (db : DB) (uid : Int) (f : UserPrefs → UserPrefs)
    (hf : ∀ r, (f r).user_id = r.user_id) :
    (db.map f).filter (keyIs uid) = ((db.filter (keyIs uid)).map f) := by
  rw [List.filter_map, keyIs_comp uid f hf]

theorem hasUser_map (db : DB) (uid : Int) (f : UserPrefs → UserPrefs)
    (hf : ∀ r, (f r).user_id = r.user_id) :
    hasUser (db.map f) uid = hasUser db uid := by
  simp only [hasUser, List.any_map, keyIs_comp uid f hf]

theorem hasUser_false_filter (db : DB) (uid : Int) (h : hasUser db uid = false) :
    db.filter (keyIs uid) = [] := by
  rw [List.filter_eq_nil_iff]
  intro r hr hc
  have : hasUser db uid = true := List.any_eq_true.mpr ⟨r, hr, hc⟩
  rw [h] at this
  cases this

theorem hasUser_true_of_get (db : DB) (uid : Int) (r0 : UserPrefs)
    (h : get_user db uid = some r0) : hasUser db uid = true := by
  have hmem := List.mem_of_find?_eq_some h
  have hp := List.find?_some h
  exact List.any_eq_true.mpr ⟨r0, hmem, hp⟩

theorem upd_chat_id (uid cid : Int) :
    ∀ r : UserPrefs,
      ((if r.user_id = uid then { r with chat_id := cid } else r) : UserPrefs).user_id
        = r.user_id := by
  intro r
  by_cases h : r.user_id = uid <;> simp [h]

theorem upd_set_time_id (uid cid : Int) (t : String) :
    ∀ r : UserPrefs,
      ((if r.user_id = uid then
          { r with chat_id := cid, time_hhmm := some t, enabled := true }
        else r) : UserPrefs).user_id = r.user_id := by
  intro r
  by_cases h : r.user_id = uid <;> simp [h]

theorem upd_enabled_id (uid : Int) (e : Bool) :
    ∀ r : UserPrefs,
      ((if r.user_id = uid then { r with enabled := e } else r) : UserPrefs).user_id
        = r.user_id := by
  intro r
  by_cases h : r.user_id = uid <;> simp [h]

theorem upsert_user_of_hasUser (db : DB) (uid cid : Int) (h : hasUser db uid = true) :
    upsert_user db uid cid
      = db.map (fun r => if r.user_id = uid then { r with chat_id := cid } else r) := by
  unfold upsert_user
  rw [if_pos h]

theorem upsert_user_of_not_hasUser (db : DB) (uid cid : Int)
    (h : hasUser db uid = false) :
    upsert_user db uid cid = db ++ [{ user_id := uid, chat_id := cid }] := by
  unfold upsert_user
  rw [if_neg (by simp [h])]

/-- C6. `upsert_user` called twice with the same `user_id` and different
`chat_id` values leaves exactly one row for that `user_id`, whose `chat_id`
is the second call's value; and on an existing row `upsert_user` updates
only `chat_id`, leaving `time_hhmm`, `enabled` and `language` untouched. -/
theorem upsert_user_twice_one_row (db : DB) (uid c1 c2 : Int)
    (hkey : (db.filter (keyIs uid)).length ≤ 1) :
    (((upsert_user (upsert_user db uid c1) uid c2).filter (keyIs uid)).length = 1)
    ∧ (∀ r0, get_user db uid = some r0 →
        get_user (upsert_user (upsert_user db uid c1) uid c2) uid
          = some { r0 with chat_id := c2 })
    ∧ (get_user db uid = none →
        get_user (upsert_user (upsert_user db uid c1) uid c2) uid
          = some { user_id := uid, chat_id := c2, time_hhmm := none,
                   enabled := true, language := none }) := by
  by_cases h : hasUser db uid = true
  · -- row exists: both calls take the UPDATE branch
    have h1 := upsert_user_of_hasUser db uid c1 h
    have hh1 : hasUser (upsert_user db uid c1) uid = true := by
      rw [h1, hasUser_map db uid _ (upd_chat_id uid c1)]
      exact h
    have h2 := upsert_user_of_hasUser (upsert_user db uid c1) uid c2 hh1
    have hdouble : upsert_user (upsert_user db uid c1) uid c2
        = db.map (fun r => if r.user_id = uid then { r with chat_id := c2 } else r) := by
      rw [h2, h1, List.map_map]
      apply List.map_congr_left
      intro r _
      by_cases hr : r.user_id = uid <;> simp [Function.comp, hr]
    refine ⟨?_, ?_, ?_⟩
    · rw [hdouble, filter_map_userid db uid _ (upd_chat_id uid c2), List.length_map]
      have hge : 0 < (db.filter (keyIs uid)).length := by
        obtain ⟨r, hr, hp⟩ := List.any_eq_true.mp h
        exact List.length_pos_of_mem (List.mem_filter.mpr ⟨hr, hp⟩)
      omega
    · intro r0 hr0
      have hid : r0.user_id = uid := by
        have := List.find?_some hr0
        simpa [keyIs] using this
      rw [hdouble]
      unfold get_user at hr0 ⊢
      rw [find?_map_userid db uid _ (upd_chat_id uid c2), hr0]
      simp [hid]
    · intro hnone
      exfalso
      obtain ⟨r, hr, hp⟩ := List.any_eq_true.mp h
      unfold get_user at hnone
      rw [List.find?_eq_none] at hnone
      exact hnone r hr hp
  · -- no row: first call inserts, second call updates the inserted row
    have h0 : hasUser db uid = false := by simpa using h
    have h1 := upsert_user_of_not_hasUser db uid c1 h0
    have hh1 : hasUser (upsert_user db uid c1) uid = true := by
      rw [h1]
      simp [hasUser, List.any_append, keyIs]
    have h2 := upsert_user_of_hasUser (upsert_user db uid c1) uid c2 hh1
    have hfilterdb := hasUser_false_filter db uid h0
    have hfinddb : db.find? (keyIs uid) = none := by
      rw [List.find?_eq_none]
      intro r hr hc
      have : hasUser db uid = true := List.any_eq_true.mpr ⟨r, hr, hc⟩
      rw [h0] at this
      cases this
    refine ⟨?_, ?_, ?_⟩
    · rw [h2, h1, filter_map_userid _ uid _ (upd_chat_id uid c2), List.length_map,
        List.filter_append, hfilterdb]
      simp [keyIs]
    · intro r0 hr0
      exfalso
      unfold get_user at hr0
      rw [hfinddb] at hr0
      cases hr0
    · intro _
      rw [h2, h1]
      unfold get_user
      rw [find?_map_userid _ uid _ (upd_chat_id uid c2), List.find?_append, hfinddb]
      simp [keyIs]

/-- Witness for C6 at a concrete store. -/
theorem upsert_user_twice_one_row_witness :
    (((upsert_user (upsert_user
        [{ user_id := 7, chat_id := 100, time_hhmm := some "08:15",
           enabled := false, language := some "ru" }] 7 200) 7 300).filter
        (keyIs 7)).length = 1)
    ∧ get_user (upsert_user (upsert_user
        [{ user_id := 7, chat_id := 100, time_hhmm := some "08:15",
           enabled := false, language := some "ru" }] 7 200) 7 300) 7
      = some { user_id := 7, chat_id := 300, time_hhmm := some "08:15",
               enabled := false, language := some "ru" } := by
  have h := upsert_user_twice_one_row
    [{ user_id := 7, chat_id := 100, time_hhmm := some "08:15",
       enabled := false, language := some "ru" }] 7 200 300 (by decide)
  refine ⟨h.1, ?_⟩
  have h2 := h.2.1
    { user_id := 7, chat_id := 100, time_hhmm := some "08:15",
      enabled := false, language := some "ru" } (by decide)
  exact h2

/-- C7. `set_enabled(user_id, False)` flips only the `enabled` flag of the
existing row (all other fields, in particular `time_hhmm`, unchanged; rows of
other users untouched), and a subsequent `set_time(user_id, chat_id, t)` sets
`time_hhmm` to `t` and forces `enabled` back to `true`. -/
theorem set_enabled_then_set_time (db : DB) (uid cid : Int) (t : String)
    (r0 : UserPrefs) (h0 : get_user db uid = some r0) :
    get_user (set_enabled db uid false) uid = some { r0 with enabled := false }
    ∧ (∀ r ∈ db, r.user_id ≠ uid → r ∈ set_enabled db uid false)
    ∧ get_user (set_time (set_enabled db uid false) uid cid t) uid
        = some { r0 with chat_id := cid, time_hhmm := some t, enabled := true } := by
  have hid : r0.user_id = uid := by
    have := List.find?_some h0
    simpa [keyIs] using this
  have hget1 : get_user (set_enabled db uid false) uid
      = some { r0 with enabled := false } := by
    unfold get_user set_enabled
    unfold get_user at h0
    rw [find?_map_userid db uid _ (upd_enabled_id uid false), h0]
    simp [hid]
  refine ⟨hget1, ?_, ?_⟩
  · intro r hr hne
    unfold set_enabled
    have heq : (if r.user_id = uid then { r with enabled := false } else r) = r := by
      rw [if_neg hne]
    exact heq ▸ List.mem_map_of_mem _ hr
  · have hh : hasUser (set_enabled db uid false) uid = true :=
      hasUser_true_of_get _ uid _ hget1
    unfold set_time
    rw [if_pos hh]
    unfold get_user
    unfold get_user at hget1
    rw [find?_map_userid _ uid _ (upd_set_time_id uid cid t), hget1]
    simp [hid]

/-- Witness for C7 at a concrete store. -/
theorem set_enabled_then_set_time_witness :
    get_user (set_enabled
        [{ user_id := 5, chat_id := 50, time_hhmm := some "09:00",
           enabled := true, language := some "en" }] 5 false) 5
      = some { user_id := 5, chat_id := 50, time_hhmm := some "09:00",
               enabled := false, language := some "en" }
    ∧ get_user (set_time (set_enabled
        [{ user_id := 5, chat_id := 50, time_hhmm := some "09:00",
           enabled := true, language := some "en" }] 5 false) 5 60 "21:30") 5
      = some { user_id := 5, chat_id := 60, time_hhmm := some "21:30",
               enabled := true, language := some "en" } := by
  have h := set_enabled_then_set_time
    [{ user_id := 5, chat_id := 50, time_hhmm := some "09:00",
       enabled := true, language := some "en" }] 5 60 "21:30"
    { user_id := 5, chat_id := 50, time_hhmm := some "09:00",
      enabled := true, language := some "en" } (by decide)
  exact ⟨h.1, h.2.2⟩

/-- C10. `set_enabled` for a `user_id` with no row in `user_prefs` leaves the
store completely unchanged: the bare `UPDATE ... WHERE user_id=?` matches no
row, creates none, and modifies none. -/
theorem set_enabled_no_row_noop (db : DB) (uid : Int) (e : Bool)
    (h : get_user db uid = none) :
    set_enabled db uid e = db := by
  unfold get_user at h
  rw [List.find?_eq_none] at h
  unfold set_enabled
  have hpt : ∀ r ∈ db,
      (if r.user_id = uid then { r with enabled := e } else r) = r := by
    intro r hr
    have hne : ¬r.user_id = uid := by
      have := h r hr
      simpa [keyIs] using this
    rw [if_neg hne]
  rw [List.map_congr_left hpt]
  exact List.map_id' db

/-- Witness for C10 at a concrete store. -/
theorem set_enabled_no_row_noop_witness :
    set_enabled
        [{ user_id := 1, chat_id := 10, time_hhmm := some "07:00",
           enabled := true, language := none }] 2 false
      = [{ user_id := 1, chat_id := 10, time_hhmm := some "07:00",
           enabled := true, language := none }] :=
  set_enabled_no_row_noop _ 2 false (by decide)

/-! ## Localization strings (src/improvments/iii.py: `I18N`, `tr`)

Only the catalog entries read by the embedded formatter code are carried. -/

/-- ASCII apostrophe. -/
def apos : String := String.singleton (Char.ofNat 39)

def iiiI18Nen : List (String × String) :=
  [("pt_header", "🕌 Prayer times (Moscow / MSK)"),
   ("date_label", "📅 Date:"),
   ("hijri_label", "🗓️ Hijri:"),
   ("source", "🔗 Source"),
   ("no_data", "❌ Today" ++ apos ++ "s data isn" ++ apos
      ++ "t available yet, please try again later."),
   ("next_prayer", "⏳ Next Prayer:"),
   ("next_prayer_tomorrow", "⏳ Next prayer is tomorrow")]

def iiiI18Nru : List (String × String) :=
  [("pt_header", "🕌 Время намаза (Москва / MSK)"),
   ("date_label", "📅 Дата:"),
   ("hijri_label", "🗓️ Хиджри:"),
   ("source", "🔗 Источник"),
   ("no_data", "❌ Сегодняшние данные пока недоступны, попробуйте позже."),
   ("next_prayer", "⏳ Следующая молитва:"),
   ("next_prayer_tomorrow", "⏳ Следующая молитва завтра")]

def iiiI18Nar : List (String × String) :=
  [("pt_header", "🕌 مواقيت الصلاة (موسكو / MSK)"),
   ("date_label", "📅 التاريخ:"),
   ("hijri_label", "🗓️ الهجري:"),
   ("source", "🔗 المصدر"),
   ("no_data", "❌ بيانات اليوم غير متوفرة بعد، حاول لاحقاً."),
   ("next_prayer", "⏳ الصلاة القادمة:"),
   ("next_prayer_tomorrow", "⏳ الصلاة القادمة غداً")]

/-- `tr(lang, key)`: unknown language falls back to English; unknown key
yields the bracketed placeholder. -/
def trIii (lang key : String) : String :=
  let table :=
    if lang = "en" then iiiI18Nen
    else if lang = "ru" then iiiI18Nru
    else if lang = "ar" then iiiI18Nar
    else iiiI18Nen
  ((table.find? (fun p => decide (p.1 = key))).map (fun p => p.2)).getD
    ("[" ++ key ++ "]")

/-! ## Feed loader (src/zbot/formatter.py, src/finalbotbeforeimprovments/formatter.py)

JSON values as parsed by `json.load`. -/

inductive Json where
  | null
  | bool (b : Bool)
  | num (n : Int)
  | str (s : String)
  | arr (elems : List Json)
  | obj (fields : List (String × Json))
deriving Repr

def isObj : Json → Bool
  | .obj _ => true
  | _ => false

def isArr : Json → Bool
  | .arr _ => true
  | _ => false

/-- Python `dict.get` on a parsed JSON object. -/
def jlookup (fields : List (String × Json)) (k : String) : Option Json :=
  (fields.find? (fun p => decide (p.1 = k))).map (fun p => p.2)

/-- `load_latest(data_file)`: the argument is the result of
`open` + `json.load` (`.error` = file-not-found or parse failure, which the
function does not catch and therefore propagates).  A list yields its first
element when that element is a dict, `{}` otherwise; a dict is returned
as-is; anything else yields `{}`. -/
def load_latest (parsed : Except String Json) : Except String Json :=
  match parsed with
  | .error e => .error e
  | .ok data =>
    match data with
    | .arr elems =>
      match elems with
      | [] => .ok (.obj [])
      | first :: _ => .ok (if isObj first then first else .obj [])
    | .obj fields => .ok (.obj fields)
    | _ => .ok (.obj [])

/-- C4. `load_latest` returns the first element of a non-empty array when it
is an object, an empty record when the array is empty or its first element is
not an object, a bare object unchanged, an empty record for any other
top-level value, and propagates load failures unchanged. -/
theorem load_latest_spec :
    (∀ f rest, load_latest (.ok (.arr (Json.obj f :: rest))) = .ok (.obj f))
    ∧ load_latest (.ok (.arr [])) = .ok (.obj [])
    ∧ (∀ x rest, isObj x = false → load_latest (.ok (.arr (x :: rest))) = .ok (.obj []))
    ∧ (∀ f, load_latest (.ok (.obj f)) = .ok (.obj f))
    ∧ (∀ v, isArr v = false → isObj v = false → load_latest (.ok v) = .ok (.obj []))
    ∧ (∀ e, load_latest (.error e) = .error e) := by
  refine ⟨fun f rest => rfl, rfl, ?_, fun f => rfl, ?_, fun e => rfl⟩
  · intro x rest hx
    simp [load_latest, hx]
  · intro v harr hobj
    cases v <;> simp_all [load_latest, isArr, isObj]

/-- Witness for C4: a non-object first element, and a non-array non-object
top-level value, both yield the empty record. -/
theorem load_latest_spec_witness :
    load_latest (.ok (.arr [Json.num 3])) = .ok (.obj [])
    ∧ load_latest (.ok (.str "x")) = .ok (.obj []) :=
  ⟨load_latest_spec.2.2.1 (Json.num 3) [] rfl,
   load_latest_spec.2.2.2.2.1 (Json.str "x") rfl rfl⟩

/-- `_load_today_or_friendly(data_file, lang)` (src/improvments/iii.py):
loads via `load_latest` (an exception becomes the friendly message), then
rejects a falsy or non-dict payload, a missing / falsy / non-dict / empty
`prayers` value, and a `date` different from today's Moscow date; otherwise
returns the payload with no message.  `today` is the current
`datetime.now(MOSCOW_TZ).date().isoformat()` string. -/
def loadTodayOrFriendly (loadResult : Except String Json) (today lang : String) :
    Option Json × Option String :=
  match loadResult with
  | .error _ => (none, some (trIii lang "no_data"))
  | .ok payload =>
    match payload with
    | .obj fields =>
      if fields.isEmpty then (none, some (trIii lang "no_data"))
      else
        match jlookup fields "prayers" with
        | some (.obj pf) =>
          if pf.isEmpty then (none, some (trIii lang "no_data"))
          else
            match jlookup fields "date" with
            | some (.str d) =>
              if d = today then (some (.obj fields), none)
              else (none, some (trIii lang "no_data"))
            | _ => (none, some (trIii lang "no_data"))
        | _ => (none, some (trIii lang "no_data"))
    | _ => (none, some (trIii lang "no_data"))

/-- The spec's freshness condition, stated from its words: the load succeeded
with a non-empty mapping that contains a non-empty `prayers` mapping and whose
`date` equals today's date computed in the Europe/Moscow timezone. -/
def specFreshToday (loadResult : Except String Json) (today : String) : Bool :=
  match loadResult with
  | .error _ => false
  | .ok (.obj fields) =>
      !fields.isEmpty
      && (match jlookup fields "prayers" with
          | some (.obj pf) => !pf.isEmpty
          | _ => false)
      && (match jlookup fields "date" with
          | some (.str d) => decide (d = today)
          | _ => false)
  | .ok _ => false

def payloadOf : Except String Json → Option Json
  | .ok p => some p
  | .error _ => none

/-- C3. `_load_today_or_friendly` returns the loaded payload with no friendly
message exactly when the spec's freshness condition holds, and in every other
case returns no payload together with the localized "data not available yet"
message. -/
theorem loadTodayOrFriendly_iff_fresh (loadResult : Except String Json)
    (today lang : String) :
    loadTodayOrFriendly loadResult today lang =
      if specFreshToday loadResult today then (payloadOf loadResult, none)
      else (none, some (trIii lang "no_data")) := by
  cases loadResult with
  | error e => rfl
  | ok payload =>
    cases payload with
    | obj fields =>
      by_cases hf : fields.isEmpty
      · simp [loadTodayOrFriendly, specFreshToday, hf]
      · rcases hp : jlookup fields "prayers" with _ | pj
        · simp [loadTodayOrFriendly, specFreshToday, hf, hp]
        · cases pj with
          | obj pf =>
            by_cases hpf : pf.isEmpty
            · simp [loadTodayOrFriendly, specFreshToday, hf, hp, hpf]
            · rcases hd : jlookup fields "date" with _ | dj
              · simp [loadTodayOrFriendly, specFreshToday, hf, hp, hpf, hd]
              · cases dj with
                | str d =>
                  by_cases hdt : d = today
                  · simp [loadTodayOrFriendly, specFreshToday, hf, hp, hpf, hd,
                      hdt, payloadOf]
                  · simp [loadTodayOrFriendly, specFreshToday, hf, hp, hpf, hd, hdt]
                | null => simp [loadTodayOrFriendly, specFreshToday, hf, hp, hpf, hd]
                | bool b => simp [loadTodayOrFriendly, specFreshToday, hf, hp, hpf, hd]
                | num n => simp [loadTodayOrFriendly, specFreshToday, hf, hp, hpf, hd]
                | arr xs => simp [loadTodayOrFriendly, specFreshToday, hf, hp, hpf, hd]
                | obj g => simp [loadTodayOrFriendly, specFreshToday, hf, hp, hpf, hd]
          | null => simp [loadTodayOrFriendly, specFreshToday, hf, hp]
          | bool b => simp [loadTodayOrFriendly, specFreshToday, hf, hp]
          | num n => simp [loadTodayOrFriendly, specFreshToday, hf, hp]
          | str s => simp [loadTodayOrFriendly, specFreshToday, hf, hp]
          | arr xs => simp [loadTodayOrFriendly, specFreshToday, hf, hp]
    | null => rfl
    | bool b => rfl
    | num n => rfl
    | str s => rfl
    | arr xs => rfl

/-! ## Quran verse providers (src/finalbotbeforeimprovments/quran.py,
src/zarchived botaya/quran.py) -/

/-- A row produced by `csv.DictReader`: header name to cell text. -/
abbrev CsvRow := List (String × String)

def rowGet (row : CsvRow) (k : String) : Option String :=
  (row.find? (fun p => decide (p.1 = k))).map (fun p => p.2)

/-- `QuranProvider._load_data` (flat shape): appends every parsed CSV row
unfiltered; `none` models a missing or unreadable file (caught, leaving the
list empty). -/
def quranProviderLoad : Option (List CsvRow) → List CsvRow
  | none => []
  | some rows => rows

/-- `QuranProvider.get_random_ayah`: `None` when nothing loaded, otherwise
`random.choice` — modelled by an arbitrary index `pick`. -/
def get_random_ayah (ayahs : List CsvRow) (pick : Nat) : Option CsvRow :=
  if ayahs.isEmpty then none else ayahs.get? (pick % ayahs.length)

/-- `Ayah` (structured shape, src/zarchived botaya/quran.py). -/
structure Ayah where
  surah : String
  ayah_num : String
  arabic : String
  english : Option String := none
  russian : Option String := none
deriving Repr, DecidableEq

/-- `QuranManager._load_ayahs`: builds an `Ayah` from each CSV row and keeps
it only when its `arabic` text is non-empty (`if ayah.arabic:`); `none`
models a missing or unreadable file. -/
def quranManagerLoad : Option (List CsvRow) → List Ayah
  | none => []
  | some rows =>
    rows.filterMap (fun row =>
      let a : Ayah :=
        { surah := (rowGet row "surah").getD ""
          ayah_num := (rowGet row "ayah_num").getD ""
          arabic := (rowGet row "arabic").getD ""
          english := rowGet row "english"
          russian := rowGet row "russian" }
      if a.arabic.isEmpty then none else some a)

/-- `QuranManager.get_random_ayah`. -/
def managerGetRandomAyah (ayahs : List Ayah) (pick : Nat) : Option Ayah :=
  if ayahs.isEmpty then none else ayahs.get? (pick % ayahs.length)

/-- C8 counterexample: the flat-shape `QuranProvider` keeps CSV rows with no
Arabic text — nothing is discarded at load time — and `get_random_ayah` can
return such a row. -/
theorem quranProvider_returns_row_without_arabic :
    get_random_ayah (quranProviderLoad (some [[("en", "hello")]])) 0
      = some [("en", "hello")]
    ∧ rowGet [("en", "hello")] "ar" = none := by
  constructor <;> decide

/-- C8 amended: the structured-shape `QuranManager` discards rows lacking
Arabic text at load time, so every verse it can return has non-empty Arabic;
the flat-shape `QuranProvider` performs no such filtering; and for both, a
missing/unreadable file loads nothing and `get_random_ayah` on an empty
collection returns an absent value rather than failing. -/
theorem quranManager_arabic_nonempty (rows : Option (List CsvRow)) (pick : Nat) :
    (∀ a, managerGetRandomAyah (quranManagerLoad rows) pick = some a → a.arabic ≠ "")
    ∧ quranManagerLoad none = []
    ∧ quranProviderLoad none = []
    ∧ managerGetRandomAyah [] pick = none
    ∧ get_random_ayah [] pick = none := by
  refine ⟨?_, rfl, rfl, rfl, rfl⟩
  intro a ha
  unfold managerGetRandomAyah at ha
  split at ha
  · cases ha
  · have hmem : a ∈ quranManagerLoad rows := by
      exact List.get?_mem ha
    cases rows with
    | none => cases hmem
    | some rs =>
      unfold quranManagerLoad at hmem
      obtain ⟨row, _, hrow⟩ := List.mem_filterMap.mp hmem
      by_cases he : ((rowGet row "arabic").getD "").isEmpty
      · simp [he] at hrow
      · simp [he] at hrow
        intro hcon
        rw [← hrow] at hcon
        simp at hcon
        rw [hcon] at he
        simp [String.isEmpty] at he

/-- Witness for C8's amended theorem at a concrete CSV. -/
theorem quranManager_arabic_nonempty_witness :
    managerGetRandomAyah
        (quranManagerLoad (some [[("arabic", "x"), ("surah", "s")]])) 0
      = some { surah := "s", ayah_num := "", arabic := "x" }
    ∧ ({ surah := "s", ayah_num := "", arabic := "x" : Ayah }).arabic ≠ "" := by
  refine ⟨by decide, ?_⟩
  exact (quranManager_arabic_nonempty (some [[("arabic", "x"), ("surah", "s")]]) 0).1
    _ (by decide)

/-! ## Broadcast send loop (src/thebot/bot.py `broadcast_cmd`,
src/improvments/iii.py `execute_broadcast`) -/

structure BroadcastResult where
  sent : Nat
  failed : Nat
  attempted : List Int
deriving Repr, DecidableEq

/-- The per-recipient send loop: each enabled user is sent the message inside
a per-user try/except; success increments `sent`, an exception increments
`failed`, and the loop continues either way.  `send` models the platform call
(`true` = delivered); `attempted` records each attempted `chat_id` in loop
order. -/
def broadcastLoop (users : List UserPrefs) (send : Int → Bool) : BroadcastResult :=
  match users with
  | [] => { sent := 0, failed := 0, attempted := [] }
  | u :: rest =>
    let r := broadcastLoop rest send
    if send u.chat_id then
      { sent := r.sent + 1, failed := r.failed, attempted := u.chat_id :: r.attempted }
    else
      { sent := r.sent, failed := r.failed + 1, attempted := u.chat_id :: r.attempted }

theorem broadcastLoop_attempted (users : List UserPrefs) (send : Int → Bool) :
    (broadcastLoop users send).attempted = users.map (fun u => u.chat_id) := by
  induction users with
  | nil => rfl
  | cons u rest ih =>
    unfold broadcastLoop
    by_cases h : send u.chat_id <;> simp [h, ih]

theorem broadcastLoop_sum (users : List UserPrefs) (send : Int → Bool) :
    (broadcastLoop users send).sent + (broadcastLoop users send).failed
      = users.length := by
  induction users with
  | nil => rfl
  | cons u rest ih =>
    unfold broadcastLoop
    by_cases h : send u.chat_id <;> simp [h] <;> omega

theorem broadcastLoop_sent (users : List UserPrefs) (send : Int → Bool) :
    (broadcastLoop users send).sent
      = (users.filter (fun u => send u.chat_id)).length := by
  induction users with
  | nil => rfl
  | cons u rest ih =>
    unfold broadcastLoop
    by_cases h : send u.chat_id <;> simp [h, ih]

/-- C9. Every enabled recipient is attempted exactly once and in order, a
failing send only increments the failed count and does not stop the loop, the
final counts satisfy `sent + failed = recipients`, and the spec's example — 3
recipients with the second send failing — yields `sent = 2`, `failed = 1`
with all three attempted. -/
theorem broadcast_attempts_and_counts (users : List UserPrefs) (send : Int → Bool) :
    ((broadcastLoop users send).attempted = users.map (fun u => u.chat_id)
      ∧ (broadcastLoop users send).sent + (broadcastLoop users send).failed
          = users.length
      ∧ (broadcastLoop users send).sent
          = (users.filter (fun u => send u.chat_id)).length)
    ∧ broadcastLoop
        [{ user_id := 1, chat_id := 11 }, { user_id := 2, chat_id := 22 },
         { user_id := 3, chat_id := 33 }]
        (fun c => decide (c ≠ 22))
      = { sent := 2, failed := 1, attempted := [11, 22, 33] } := by
  refine ⟨⟨broadcastLoop_attempted users send, broadcastLoop_sum users send,
    broadcastLoop_sent users send⟩, by decide⟩

/-! ## Prayer message formatter (src/thebot/bot.py `_format_prayer_message`,
src/improvments/iii.py `_get_next_prayer_countdown`,
`_format_prayer_message_enhanced`)

The current Moscow wall clock (`datetime.now(MOSCOW_TZ)`) enters as an
explicit value: its date ISO string and its clock fields. -/

def PRAYER_ORDER : List String :=
  ["Фаджр", "Шурук", "Зухр", "Аср", "Магриб", "Иша"]

/-- Python dict lookup on the `prayers` mapping (insertion-ordered). -/
def plookup (m : List (String × String)) (k : String) : Option String :=
  (m.find? (fun p => decide (p.1 = k))).map (fun p => p.2)

/-- `html.escape` (quote=True) on one character. -/
def escChar (c : Char) : String :=
  if c = '&' then "&amp;"
  else if c = '<' then "&lt;"
  else if c = '>' then "&gt;"
  else if c = Char.ofNat 34 then "&quot;"
  else if c = Char.ofNat 39 then "&#x27;"
  else String.singleton c

/-- `html.escape` (quote=True). -/
def escape (s : String) : String :=
  String.join (s.data.map escChar)

structure NowMsk where
  dateIso : String
  hh : Nat
  mm : Nat
  ss : Nat
deriving Repr, DecidableEq

def pad2 (n : Nat) : String :=
  if n < 10 then "0" ++ toString n else toString n

/-- `now_msk.strftime("%H:%M")`. -/
def nowHHMM (t : NowMsk) : String :=
  pad2 t.hh ++ ":" ++ pad2 t.mm

/-- Python string comparison `a < b` on the underlying code-point lists:
lexicographic by code point, a proper prefix compares smaller. -/
def pyStrLtAux : List Char → List Char → Bool
  | [], [] => false
  | [], _ :: _ => true
  | _ :: _, [] => false
  | c :: as, d :: bs =>
    if c.toNat < d.toNat then true
    else if d.toNat < c.toNat then false
    else pyStrLtAux as bs

/-- Python `a > b` on strings. -/
def pyStrGt (a b : String) : Bool :=
  pyStrLtAux b.data a.data

/-- Python `s.split(sep)` for a one-character separator. -/
def splitOnCharAux (sep : Char) : List Char → List (List Char)
  | [] => [[]]
  | c :: rest =>
    match splitOnCharAux sep rest with
    | [] => [[]]
    | g :: gs => if c = sep then [] :: g :: gs else (c :: g) :: gs

/-- Python `s.split(sep)` for a one-character separator. -/
def splitOnCharStr (sep : Char) (s : String) : List String :=
  (splitOnCharAux sep s.data).map (fun cs => String.mk cs)

/-- Python `int()` on the plain digit strings occurring in time fields. -/
def digitsToNat? (s : String) : Option Nat :=
  if s.length ≠ 0 ∧ s.data.all (fun c => c.isDigit) then
    some (s.data.foldl (fun n c => n * 10 + (c.toNat - 48)) 0)
  else none

/-- `datetime.strptime(v, "%H:%M").time()`: 1–2 digit hour 0–23 and 1–2 digit
minute 0–59, full match required; `none` models the ValueError. -/
def strptimeHM (s : String) : Option (Nat × Nat) :=
  match splitOnCharStr ':' s with
  | [hs, ms] =>
    match digitsToNat? hs, digitsToNat? ms with
    | some h, some m =>
      if hs.length ≤ 2 ∧ ms.length ≤ 2 ∧ h ≤ 23 ∧ m ≤ 59 then some (h, m)
      else none
    | _, _ => none
  | _ => none

/-- `datetime.time(ph, pm) > datetime.time(nh, nm, ns, μs)`: lexicographic on
(hour, minute, second, microsecond), the left side having second 0. -/
def timeObjGt (ph pm nh nm ns : Nat) : Bool :=
  if ph ≠ nh then decide (ph > nh)
  else if pm ≠ nm then decide (pm > nm)
  else if (0 : Nat) ≠ ns then decide (0 > ns)
  else false

/-- The try/except of the countdown block in `_format_prayer_message`
(src/thebot/bot.py): parse "HH:MM", `now.replace(hour, minute, second=0)`
(ValueError for an out-of-range field leaves the suffix empty), subtract, and
format `(-{hours}h {minutes}m)` with Python floor division and modulo. -/
def timeLeftStr (p_time : String) (t : NowMsk) : String :=
  match splitOnCharStr ':' p_time with
  | [hs, ms] =>
    match digitsToNat? hs, digitsToNat? ms with
    | some ph, some pm =>
      if ph ≤ 23 ∧ pm ≤ 59 then
        let target : Int := (ph : Int) * 3600 + (pm : Int) * 60
        let nowsec : Int := (t.hh : Int) * 3600 + (t.mm : Int) * 60 + (t.ss : Int)
        let total : Int := target - nowsec
        let hours : Int := Int.fdiv total 3600
        let minutes : Int := Int.fdiv (Int.emod total 3600) 60
        "(-" ++ toString hours ++ "h " ++ toString minutes ++ "m)"
      else ""
    | _, _ => ""
  | _ => ""

/-- The scanning loop of the countdown block in `_format_prayer_message`
(src/thebot/bot.py lines 307–326): first key of `PRAYER_ORDER` present in the
payload whose "HH:MM" value compares greater (plain string comparison) than
the current clock string; on a hit both the key and the remaining-time suffix
are produced and the loop breaks. -/
def scanNextPrayer (order : List String) (prayers : List (String × String))
    (t : NowMsk) : Option String × String :=
  match order with
  | [] => (none, "")
  | k :: rest =>
    match plookup prayers k with
    | none => scanNextPrayer rest prayers t
    | some v =>
      if pyStrGt v (nowHHMM t) then (some k, timeLeftStr v t)
      else scanNextPrayer rest prayers t

/-- The countdown block of `_format_prayer_message` including its
`is_today = (date_str == now_msk.date().isoformat())` gate: when the payload
date is not today the whole block is skipped and neither a next-prayer key nor
a remaining-time suffix is computed. -/
def nextPrayerBlock (date_str : String) (prayers : List (String × String))
    (t : NowMsk) : Option String × String :=
  if date_str = t.dateIso then scanNextPrayer PRAYER_ORDER prayers t
  else (none, "")

def prayerNameMapRu : List (String × String) :=
  [("Фаджр", "Фаджр"), ("Шурук", "Шурук"), ("Зухр", "Зухр"),
   ("Аср", "Аср"), ("Магриб", "Магриб"), ("Иша", "Иша")]

def prayerNameMapEn : List (String × String) :=
  [("Фаджр", "Fajr"), ("Шурук", "Sunrise"), ("Зухр", "Dhuhr"),
   ("Аср", "Asr"), ("Магриб", "Maghrib"), ("Иша", "Isha")]

def prayerNameMapAr : List (String × String) :=
  [("Фаджр", "الفجر"), ("Шурук", "الشروق"), ("Зухр", "الظهر"),
   ("Аср", "العصر"), ("Магриб", "المغرب"), ("Иша", "العشاء")]

/-- `PRAYER_NAME_MAP.get(lang, PRAYER_NAME_MAP["en"])`. -/
def nameMapFor (lang : String) : List (String × String) :=
  if lang = "ru" then prayerNameMapRu
  else if lang = "en" then prayerNameMapEn
  else if lang = "ar" then prayerNameMapAr
  else prayerNameMapEn

/-- `prayer_emoji` of src/thebot/bot.py (Магриб shares 🌅 with Фаджр there). -/
def prayerEmojiThebot : List (String × String) :=
  [("Фаджр", "🌅"), ("Шурук", "🌄"), ("Зухр", "☀️"),
   ("Аср", "🌤️"), ("Магриб", "🌅"), ("Иша", "🌙")]

/-- `PRAYER_EMOJI` of src/improvments/iii.py. -/
def prayerEmojiIii : List (String × String) :=
  [("Фаджр", "🌅"), ("Шурук", "🌄"), ("Зухр", "☀️"),
   ("Аср", "🌤️"), ("Магриб", "🌆"), ("Иша", "🌙")]

/-- One canonical prayer line of `_format_prayer_message` (src/thebot/bot.py):
the bell-highlighted form when the key is the computed next prayer, the plain
emoji/monospace form otherwise. -/
def renderPrayerLineThebot (lang : String) (nextKey : Option String)
    (timeLeft : String) (k v : String) : String :=
  let label := (plookup (nameMapFor lang) k).getD k
  let emoji := (plookup prayerEmojiThebot k).getD "•"
  if nextKey = some k then
    "🔔 <b>" ++ escape label ++ ": " ++ escape v ++ "</b> ⏳ " ++ timeLeft
  else
    emoji ++ " <b>" ++ escape label ++ ":</b> <code>" ++ escape v ++ "</code>"

/-- The plain (non-highlight) prayer-line form of `_format_prayer_message`,
stated on its own: the rendering used whenever a key is not the next prayer. -/
def renderPlainLineThebot (lang k v : String) : String :=
  let label := (plookup (nameMapFor lang) k).getD k
  let emoji := (plookup prayerEmojiThebot k).getD "•"
  emoji ++ " <b>" ++ escape label ++ ":</b> <code>" ++ escape v ++ "</code>"

/-- One canonical prayer line of `_format_prayer_message_enhanced`
(src/improvments/iii.py line 457). -/
def renderPrayerLineEnhanced (lang k v : String) : String :=
  let label := (plookup (nameMapFor lang) k).getD k
  let emoji := (plookup prayerEmojiIii k).getD "•"
  emoji ++ " <b>" ++ escape label ++ ":</b> <code>" ++ escape v ++ "</code>"

/-- One non-canonical prayer line (`• <b>label:</b> <code>val</code>`),
identical in both formatter generations. -/
def renderOtherLine (lang k v : String) : String :=
  "• <b>" ++ escape ((plookup (nameMapFor lang) k).getD k) ++ ":</b> <code>"
    ++ escape v ++ "</code>"

/-- The first rendering loop (`for key in PRAYER_ORDER: if key in prayers`). -/
def canonicalLoop (order : List String) (prayers : List (String × String))
    (render : String → String → String) : List String :=
  match order with
  | [] => []
  | k :: rest =>
    match plookup prayers k with
    | none => canonicalLoop rest prayers render
    | some v => render k v :: canonicalLoop rest prayers render

/-- The `used` set after the first loop: canonical keys present in the payload. -/
def usedKeys (order : List String) (prayers : List (String × String)) :
    List String :=
  order.filter (fun k => (plookup prayers k).isSome)

/-- The second rendering loop
(`for key, val in prayers.items(): if key not in used`). -/
def extraLines (prayers : List (String × String)) (used : List String)
    (render : String → String → String) : List String :=
  (prayers.filter (fun kv => !(used.contains kv.1))).map (fun kv => render kv.1 kv.2)

/-- The prayer-lines section of `_format_prayer_message`
(src/thebot/bot.py lines 329–349): canonical loop then leftover loop. -/
def prayerLinesSection (prayers : List (String × String)) (lang : String)
    (nextKey : Option String) (timeLeft : String) : List String :=
  canonicalLoop PRAYER_ORDER prayers (renderPrayerLineThebot lang nextKey timeLeft)
    ++ extraLines prayers (usedKeys PRAYER_ORDER prayers) (renderOtherLine lang)

/-- `_get_next_prayer_countdown` (src/improvments/iii.py lines 377–417) past
its payload guard: collect the parseable canonical prayer times in order, find
the first one strictly later than the current clock, and either name it with
the remaining time or state that the next prayer is tomorrow.  Note the
function has no payload-date check of its own. -/
def getNextPrayerCountdown (prayers : List (String × String)) (t : NowMsk)
    (lang : String) : String :=
  let prayer_times : List (String × Nat × Nat) :=
    PRAYER_ORDER.filterMap (fun k =>
      match plookup prayers k with
      | some v => (strptimeHM v).map (fun p => (k, p))
      | none => none)
  match prayer_times.find? (fun p => timeObjGt p.2.1 p.2.2 t.hh t.mm t.ss) with
  | none => "\n" ++ trIii lang "next_prayer_tomorrow"
  | some (k, ph, pm) =>
    let nextSec : Int := (ph : Int) * 3600 + (pm : Int) * 60
    let nowSec : Int := (t.hh : Int) * 3600 + (t.mm : Int) * 60 + (t.ss : Int)
    let diffSeconds : Nat := (Int.emod (nextSec - nowSec) 86400).toNat
    let hours := diffSeconds / 3600
    let minutes := diffSeconds % 3600 / 60
    let label := (plookup (nameMapFor lang) k).getD k
    "\n" ++ trIii lang "next_prayer" ++ ": " ++ label ++ " in "
      ++ toString hours ++ "h " ++ toString minutes ++ "m"

def isLeap (y : Nat) : Bool :=
  decide (y % 4 = 0 ∧ (y % 100 ≠ 0 ∨ y % 400 = 0))

def daysInMonth (y m : Nat) : Nat :=
  if m = 2 then (if isLeap y then 29 else 28)
  else if m = 4 ∨ m = 6 ∨ m = 9 ∨ m = 11 then 30
  else 31

/-- `datetime.date.fromisoformat` on the feed's `YYYY-MM-DD` shape; `none`
models the ValueError. -/
def parseIsoDate (s : String) : Option (Nat × Nat × Nat) :=
  match splitOnCharStr '-' s with
  | [ys, ms, ds] =>
    if ys.length = 4 ∧ ms.length = 2 ∧ ds.length = 2 then
      match digitsToNat? ys, digitsToNat? ms, digitsToNat? ds with
      | some y, some m, some d =>
        if 1 ≤ y ∧ 1 ≤ m ∧ m ≤ 12 ∧ 1 ≤ d ∧ d ≤ daysInMonth y m then
          some (y, m, d)
        else none
      | _, _, _ => none
    else none
  | _ => none

def pad4 (n : Nat) : String :=
  if n < 10 then "000" ++ toString n
  else if n < 100 then "00" ++ toString n
  else if n < 1000 then "0" ++ toString n
  else toString n

/-- The `pretty_date` computation: `greg_date.strftime("%d.%m.%Y")` on parse
success, the raw string on failure. -/
def prettyDateOf (date_str : String) : String :=
  match parseIsoDate date_str with
  | some (y, m, d) => pad2 d ++ "." ++ pad2 m ++ "." ++ pad4 y
  | none => date_str

def bar40 : String := String.mk (List.replicate 40 '━')

/-- `_format_prayer_message_enhanced` (src/improvments/iii.py lines 420–485)
as the `lines` list it joins with `"\n"`.  `prayers = none` models a payload
that is falsy or lacks the "prayers" key (the early no-data return);
`hijriConv` is the external `hijridate`-backed `_hijri_string_for_date lang`
wrapper (`none` = conversion failure); `ayahBlock` is the text produced by
`quran_manager.format_ayah` when a manager is supplied and a verse was drawn. -/
def formatPrayerMessageEnhancedLines (prayers : Option (List (String × String)))
    (date_str source_url lang : String) (t : NowMsk)
    (hijriConv : Nat × Nat × Nat → Option String) (ayahBlock : Option String) :
    List String :=
  match prayers with
  | none => ["❌ " ++ escape (trIii lang "no_data")]
  | some prayers =>
    let pretty_date := prettyDateOf date_str
    let hijri_str : Option String :=
      match parseIsoDate date_str with
      | some g => hijriConv g
      | none => none
    let countdown := getNextPrayerCountdown prayers t lang
    [bar40, "<b>" ++ escape (trIii lang "pt_header") ++ "</b>", bar40]
    ++ (if pretty_date = "" then [] else
         ["<b>" ++ escape (trIii lang "date_label") ++ "</b> " ++ escape pretty_date])
    ++ (match hijri_str with
        | some h =>
          if h = "" then [] else
            ["<b>" ++ escape (trIii lang "hijri_label") ++ "</b> " ++ escape h]
        | none => [])
    ++ [""]
    ++ canonicalLoop PRAYER_ORDER prayers (renderPrayerLineEnhanced lang)
    ++ extraLines prayers (usedKeys PRAYER_ORDER prayers) (renderOtherLine lang)
    ++ [bar40]
    ++ (if source_url = "" then [] else
         ["<a href=" ++ apos ++ escape source_url ++ apos ++ ">"
           ++ escape (trIii lang "source") ++ "</a>"])
    ++ (if countdown = "" then [] else [countdown])
    ++ (match ayahBlock with
        | some s => ["", s]
        | none => [])

/-! ## Theorems about the formatter blocks -/

/-- The spec's selection criterion: the prayer's "HH:MM" time string is
lexicographically greater than the current "HH:MM" clock string. -/
def lexGreaterPred (prayers : List (String × String)) (t : NowMsk)
    (k : String) : Bool :=
  match plookup prayers k with
  | some v => pyStrGt v (nowHHMM t)
  | none => false

theorem scanNextPrayer_fst (order : List String)
    (prayers : List (String × String)) (t : NowMsk) :
    (scanNextPrayer order prayers t).1 = order.find? (lexGreaterPred prayers t) := by
  induction order with
  | nil => rfl
  | cons k rest ih =>
    rw [List.find?_cons]
    cases h : plookup prayers k with
    | none =>
      have hb : lexGreaterPred prayers t k = false := by
        unfold lexGreaterPred
        rw [h]
      rw [hb]
      simpa only [scanNextPrayer, h] using ih
    | some v =>
      have hb : lexGreaterPred prayers t k = pyStrGt v (nowHHMM t) := by
        unfold lexGreaterPred
        rw [h]
      rw [hb]
      cases hd : pyStrGt v (nowHHMM t) with
      | true => simp only [scanNextPrayer, h, hd, if_true]
      | false =>
        simp only [scanNextPrayer, h, hd, Bool.false_eq_true, if_false]
        exact ih

theorem scanNextPrayer_none (order : List String)
    (prayers : List (String × String)) (t : NowMsk)
    (h : ∀ k ∈ order, ∀ v, plookup prayers k = some v →
          pyStrGt v (nowHHMM t) = false) :
    scanNextPrayer order prayers t = (none, "") := by
  induction order with
  | nil => rfl
  | cons k rest ih =>
    have hrest : ∀ k ∈ rest, ∀ v, plookup prayers k = some v →
        pyStrGt v (nowHHMM t) = false :=
      fun k2 hk2 v hv => h k2 (List.mem_cons_of_mem _ hk2) v hv
    cases hk : plookup prayers k with
    | none => simpa only [scanNextPrayer, hk] using ih hrest
    | some v =>
      have hnv := h k (List.mem_cons_self _ _) v hk
      simpa only [scanNextPrayer, hk, hnv, Bool.false_eq_true, if_false]
        using ih hrest

/-- C1. With the payload dated today in Moscow, the highlight computed by the
countdown block of `_format_prayer_message` is the first key of the canonical
six-name order present in the payload whose "HH:MM" string is lexicographically
greater than the current "HH:MM" clock string; with any other payload date,
neither a next-prayer key nor a remaining-time suffix is computed.  At the
spec's example clock 12:41 with times 06:38/12:40/13:59 the selection is Аср. -/
theorem next_prayer_highlight_first_greater (date_str : String)
    (prayers : List (String × String)) (t : NowMsk) :
    ((nextPrayerBlock date_str prayers t).1
      = if date_str = t.dateIso then
          PRAYER_ORDER.find? (lexGreaterPred prayers t)
        else none)
    ∧ (date_str ≠ t.dateIso → nextPrayerBlock date_str prayers t = (none, ""))
    ∧ (nextPrayerBlock "2026-03-01"
        [("Фаджр", "06:38"), ("Зухр", "12:40"), ("Аср", "13:59")]
        { dateIso := "2026-03-01", hh := 12, mm := 41, ss := 0 }).1 = some "Аср" := by
  refine ⟨?_, ?_, by decide⟩
  · unfold nextPrayerBlock
    by_cases h : date_str = t.dateIso
    · simp [h, scanNextPrayer_fst]
    · simp [h]
  · intro h
    unfold nextPrayerBlock
    simp [h]

/-- Witness for C1: a payload dated a day other than today computes no
next-prayer key and no remaining-time suffix. -/
theorem next_prayer_highlight_first_greater_witness :
    nextPrayerBlock "2026-03-01" [("Фаджр", "06:38")]
      { dateIso := "2026-03-02", hh := 5, mm := 0, ss := 0 } = (none, "") :=
  (next_prayer_highlight_first_greater "2026-03-01" [("Фаджр", "06:38")]
    { dateIso := "2026-03-02", hh := 5, mm := 0, ss := 0 }).2.1 (by decide)

theorem canonicalLoop_eq_filter_map (order : List String)
    (prayers : List (String × String)) (render : String → String → String) :
    canonicalLoop order prayers render
      = (order.filter (fun k => (plookup prayers k).isSome)).map
          (fun k => render k ((plookup prayers k).getD "")) := by
  induction order with
  | nil => rfl
  | cons k rest ih =>
    cases h : plookup prayers k with
    | none => simp [canonicalLoop, h, List.filter_cons, ih]
    | some v => simp [canonicalLoop, h, List.filter_cons, ih]

theorem usedKeys_contains_eq (prayers : List (String × String))
    (kv : String × String) (hkv : kv ∈ prayers) :
    (usedKeys PRAYER_ORDER prayers).contains kv.1 = PRAYER_ORDER.contains kv.1 := by
  by_cases h : kv.1 ∈ PRAYER_ORDER
  · have hsome : (plookup prayers kv.1).isSome = true := by
      unfold plookup
      cases hfind : prayers.find? (fun p => decide (p.1 = kv.1)) with
      | none =>
        rw [List.find?_eq_none] at hfind
        exact absurd (by simp) (hfind kv hkv)
      | some q => rfl
    have hmem : kv.1 ∈ usedKeys PRAYER_ORDER prayers :=
      List.mem_filter.mpr ⟨h, hsome⟩
    have h1 : (usedKeys PRAYER_ORDER prayers).contains kv.1 = true :=
      List.elem_iff.mpr hmem
    have h2 : PRAYER_ORDER.contains kv.1 = true := List.elem_iff.mpr h
    rw [h1, h2]
  · have hnm : kv.1 ∉ usedKeys PRAYER_ORDER prayers :=
      fun hm => h (List.mem_filter.mp hm).1
    have h1 : (usedKeys PRAYER_ORDER prayers).contains kv.1 = false := by
      cases hc : (usedKeys PRAYER_ORDER prayers).contains kv.1 with
      | false => rfl
      | true => exact absurd (List.elem_iff.mp hc) hnm
    have h2 : PRAYER_ORDER.contains kv.1 = false := by
      cases hc : PRAYER_ORDER.contains kv.1 with
      | false => rfl
      | true => exact absurd (List.elem_iff.mp hc) h
    rw [h1, h2]

/-- C5. The prayer-lines section renders the canonical keys present in the
payload in the fixed order Фаджр, Шурук, Зухр, Аср, Магриб, Иша, followed by
every non-canonical key of the payload in its original insertion order. -/
theorem canonical_order_then_extras (prayers : List (String × String))
    (lang : String) (nextKey : Option String) (timeLeft : String) :
    prayerLinesSection prayers lang nextKey timeLeft
      = ((PRAYER_ORDER.filter (fun k => (plookup prayers k).isSome)).map
          (fun k => renderPrayerLineThebot lang nextKey timeLeft k
            ((plookup prayers k).getD "")))
        ++ ((prayers.filter (fun kv => !(PRAYER_ORDER.contains kv.1))).map
          (fun kv => renderOtherLine lang kv.1 kv.2)) := by
  unfold prayerLinesSection
  rw [canonicalLoop_eq_filter_map]
  congr 1
  unfold extraLines
  congr 1
  apply List.filter_congr
  intro kv hkv
  rw [usedKeys_contains_eq prayers kv hkv]

theorem getNextPrayerCountdown_tomorrow (prayers : List (String × String))
    (t : NowMsk) (lang : String)
    (h : ∀ k ∈ PRAYER_ORDER, ∀ v, plookup prayers k = some v →
          ∀ p, strptimeHM v = some p → timeObjGt p.1 p.2 t.hh t.mm t.ss = false) :
    getNextPrayerCountdown prayers t lang
      = "\n" ++ trIii lang "next_prayer_tomorrow" := by
  have hfind : (PRAYER_ORDER.filterMap (fun k =>
      match plookup prayers k with
      | some v => (strptimeHM v).map (fun p => (k, p))
      | none => none)).find?
        (fun p => timeObjGt p.2.1 p.2.2 t.hh t.mm t.ss) = none := by
    rw [List.find?_eq_none]
    intro x hx
    obtain ⟨k, hk, hfk⟩ := List.mem_filterMap.mp hx
    cases hpk : plookup prayers k with
    | none =>
      rw [hpk] at hfk
      exact absurd (show (none : Option (String × Nat × Nat)) = some x from hfk)
        (by simp)
    | some v =>
      rw [hpk] at hfk
      have hfk2 : Option.map (fun p => (k, p)) (strptimeHM v) = some x := hfk
      cases hsv : strptimeHM v with
      | none =>
        rw [hsv] at hfk2
        cases hfk2
      | some p =>
        rw [hsv] at hfk2
        have hfk3 : some (k, p) = some x := hfk2
        cases hfk3
        have := h k hk v hpk p hsv
        simpa using this
  simp only [getNextPrayerCountdown]
  rw [hfind]

theorem string_newline_append_ne_empty (s : String) : ("\n" ++ s) ≠ "" := by
  intro h
  have := congrArg String.data h
  simp [String.data_append] at this

/-- C2. When every listed prayer time is at or before the current Moscow
clock in a payload dated today: the enhanced formatted message contains the
"next prayer is tomorrow" countdown line, which names no prayer; the
countdown block of `_format_prayer_message` selects no next-prayer key and
computes no remaining time; and with no key selected the prayer-lines section
renders every canonical line in the plain, non-highlight form. -/
theorem tomorrow_when_all_past (prayers : List (String × String))
    (date_str source_url lang : String) (t : NowMsk)
    (hijriConv : Nat × Nat × Nat → Option String) (ayahBlock : Option String)
    (hpastParsed : PRAYER_ORDER.all (fun k =>
        match plookup prayers k with
        | some v =>
          match strptimeHM v with
          | some p => !(timeObjGt p.1 p.2 t.hh t.mm t.ss)
          | none => true
        | none => true) = true)
    (hpastStr : PRAYER_ORDER.all (fun k =>
        match plookup prayers k with
        | some v => !(pyStrGt v (nowHHMM t))
        | none => true) = true)
    (htoday : date_str = t.dateIso) :
    ("\n" ++ trIii lang "next_prayer_tomorrow")
        ∈ formatPrayerMessageEnhancedLines (some prayers) date_str source_url
            lang t hijriConv ayahBlock
    ∧ nextPrayerBlock date_str prayers t = (none, "")
    ∧ prayerLinesSection prayers lang none ""
        = canonicalLoop PRAYER_ORDER prayers (renderPlainLineThebot lang)
          ++ extraLines prayers (usedKeys PRAYER_ORDER prayers)
              (renderOtherLine lang) := by
  have hpP : ∀ k ∈ PRAYER_ORDER, ∀ v, plookup prayers k = some v →
      ∀ p, strptimeHM v = some p → timeObjGt p.1 p.2 t.hh t.mm t.ss = false := by
    intro k hk v hv p hp
    have h3 : (match plookup prayers k with
        | some v =>
          match strptimeHM v with
          | some p => !(timeObjGt p.1 p.2 t.hh t.mm t.ss)
          | none => true
        | none => true) = true := List.all_eq_true.mp hpastParsed k hk
    rw [hv] at h3
    have h4 : (match strptimeHM v with
        | some p => !(timeObjGt p.1 p.2 t.hh t.mm t.ss)
        | none => true) = true := h3
    rw [hp] at h4
    have h5 : (!(timeObjGt p.1 p.2 t.hh t.mm t.ss)) = true := h4
    simpa using h5
  have hcd := getNextPrayerCountdown_tomorrow prayers t lang hpP
  have hne := string_newline_append_ne_empty (trIii lang "next_prayer_tomorrow")
  refine ⟨?_, ?_, ?_⟩
  · simp [formatPrayerMessageEnhancedLines, hcd, hne, List.mem_append]
  · unfold nextPrayerBlock
    rw [if_pos htoday]
    apply scanNextPrayer_none
    intro k hk v hv
    have h3 : (match plookup prayers k with
        | some v => !(pyStrGt v (nowHHMM t))
        | none => true) = true := List.all_eq_true.mp hpastStr k hk
    rw [hv] at h3
    have h4 : (!(pyStrGt v (nowHHMM t))) = true := h3
    simpa using h4
  · unfold prayerLinesSection
    have hfun : renderPrayerLineThebot lang none "" = renderPlainLineThebot lang := by
      funext k v
      simp [renderPrayerLineThebot, renderPlainLineThebot]
    rw [hfun]

/-- Witness for C2 at a concrete late-evening clock. -/
theorem tomorrow_when_all_past_witness :
    ("\n" ++ trIii "en" "next_prayer_tomorrow")
        ∈ formatPrayerMessageEnhancedLines
            (some [("Фаджр", "06:38"), ("Зухр", "12:40")])
            "2026-03-01" "" "en"
            { dateIso := "2026-03-01", hh := 23, mm := 0, ss := 0 }
            (fun _ => none) none
    ∧ nextPrayerBlock "2026-03-01" [("Фаджр", "06:38"), ("Зухр", "12:40")]
        { dateIso := "2026-03-01", hh := 23, mm := 0, ss := 0 } = (none, "") := by
  have h := tomorrow_when_all_past [("Фаджр", "06:38"), ("Зухр", "12:40")]
    "2026-03-01" "" "en" { dateIso := "2026-03-01", hh := 23, mm := 0, ss := 0 }
    (fun _ => none) none (by decide) (by decide) rfl
  exact ⟨h.1, h.2.1⟩

end Telebot
